import Mathlib

/-!
Verification of the Makegen detection engine (internal/detector/analyzer.go)
and of the target-composition (render) contract, over a shallow embedding.
The filesystem is modelled as an oracle: a stat map, a read map and a
directory listing, exactly the three primitives the Go code consults.
-/

set_option maxHeartbeats 1000000

namespace Makegen

/-- Kind reported by a successful stat call. -/
inductive EntryKind where
  | file : EntryKind
  | dir : EntryKind
deriving DecidableEq, Repr

/-- One entry of a directory listing (os.ReadDir). -/
structure DirEntry where
  name : String
  isDir : Bool
deriving DecidableEq, Repr

/-- Filesystem oracle: stat, read-file and list-directory results. -/
structure FS where
  stat : String → Option EntryKind
  read : String → Option String
  readDir : String → Option (List DirEntry)

/-- Go filepath.Join restricted to the two-argument uses in the analyzer. -/
def pathJoin (dir name : String) : String := dir ++ "/" ++ name

/-- Go fileExists: os.Stat succeeds, whatever kind the entry has. -/
def fileExists (fs : FS) (p : String) : Bool := (fs.stat p).isSome

/-- Go dirExists: os.Stat succeeds and the entry is a directory. -/
def dirExists (fs : FS) (p : String) : Bool :=
  match fs.stat p with
  | some EntryKind.dir => true
  | _ => false

/-- Checks that the list pre is an initial segment of s (strings.HasPrefix). -/
def isPre : List Char → List Char → Bool
  | [], _ => true
  | _ :: _, [] => false
  | a :: as, b :: bs => a == b && isPre as bs

/-- Checks that suf is a final segment of s (strings.HasSuffix). -/
def isSuf (suf s : List Char) : Bool := isPre suf.reverse s.reverse

/-- Checks that sub occurs contiguously inside s (strings.Contains). -/
def containsSub (s sub : List Char) : Bool :=
  isPre sub s ||
    match s with
    | [] => false
    | _ :: rest => containsSub rest sub

/-- Whitespace predicate used by strings.TrimSpace on ASCII input. -/
def goIsSpace (c : Char) : Bool := c == ' ' || c == '\t' || c == '\n' || c == '\r'

/-- Go strings.TrimSpace on a character list. -/
def goTrim (s : List Char) : List Char :=
  ((s.dropWhile goIsSpace).reverse.dropWhile goIsSpace).reverse

/-- Go strings.TrimSuffix: drop suf from the end when present, else identity. -/
def goTrimSuffix (s suf : List Char) : List Char :=
  if isSuf suf s then s.take (s.length - suf.length) else s

/-- Go hasContent: case-insensitive substring containment. -/
def hasContent (content search : String) : Bool :=
  containsSub content.toLower.data search.toLower.data

/-- Go strings.Split on the newline character. -/
def splitNl : List Char → List (List Char)
  | [] => [[]]
  | c :: rest =>
    if c = '\n' then [] :: splitNl rest
    else
      match splitNl rest with
      | [] => [[c]]
      | l :: ls => (c :: l) :: ls

/-- Outcome of detectLanguage: the language string and the HasModules flag. -/
structure LangDetect where
  language : String
  hasModules : Bool
deriving DecidableEq, Repr

/-- Go detectLanguage (analyzer.go): nested marker-file probes in source order. -/
def detectLanguage (fs : FS) (path : String) : LangDetect :=
  if fileExists fs (pathJoin path "go.mod") then
    { language := "go", hasModules := true }
  else if fileExists fs (pathJoin path "requirements.txt") ||
      fileExists fs (pathJoin path "setup.py") ||
      fileExists fs (pathJoin path "pyproject.toml") then
    { language := "python", hasModules := false }
  else if fileExists fs (pathJoin path "package.json") then
    if fileExists fs (pathJoin path "tsconfig.json") then
      { language := "typescript", hasModules := true }
    else
      { language := "javascript", hasModules := true }
  else if fileExists fs (pathJoin path "Cargo.toml") then
    { language := "rust", hasModules := false }
  else if fileExists fs (pathJoin path "pom.xml") then
    { language := "java", hasModules := false }
  else if fileExists fs (pathJoin path "build.gradle") ||
      fileExists fs (pathJoin path "build.gradle.kts") then
    { language := "java", hasModules := false }
  else if fileExists fs (pathJoin path "Gemfile") then
    { language := "ruby", hasModules := false }
  else if fileExists fs (pathJoin path "composer.json") then
    { language := "php", hasModules := false }
  else if fileExists fs (pathJoin path "CMakeLists.txt") ||
      fileExists fs (pathJoin path "Makefile") then
    { language := "cpp", hasModules := false }
  else
    { language := "unknown", hasModules := false }

/-- Spec 4.1 precedence table, written from the claim: ordered groups of
marker filenames, each group paired with the language it yields; the
package.json group is refined by the presence of tsconfig.json. -/
def markerPrecedence (fs : FS) (path : String) : List (List String × String) :=
  [ (["go.mod"], "go"),
    (["requirements.txt", "setup.py", "pyproject.toml"], "python"),
    (["package.json"],
      if fileExists fs (pathJoin path "tsconfig.json") then "typescript" else "javascript"),
    (["Cargo.toml"], "rust"),
    (["pom.xml"], "java"),
    (["build.gradle", "build.gradle.kts"], "java"),
    (["Gemfile"], "ruby"),
    (["composer.json"], "php"),
    (["CMakeLists.txt", "Makefile"], "cpp") ]

/-- Spec-side classifier: language of the first precedence group one of whose
markers exists; unknown when no group matches. -/
def classifySpec (fs : FS) (path : String) : String :=
  match (markerPrecedence fs path).find?
      (fun g => g.1.any (fun m => fileExists fs (pathJoin path m))) with
  | some g => g.2
  | none => "unknown"

/-- Character list of the services key the parser looks for. -/
def servicesChars : List Char := "services:".data

/-- State of the line-oriented compose scanner: the in-services flag and the
service names collected so far. -/
structure ComposeState where
  inServices : Bool
  services : List (List Char)
deriving DecidableEq, Repr

/-- One iteration of the parseDockerCompose line loop (analyzer.go): skip
blank and comment lines, enter in-services on a services: prefix, exit on an
unindented line, record a once-indented name ending in a colon. -/
def composeLineStep (st : ComposeState) (line : List Char) : ComposeState :=
  let trimmed := goTrim line
  if trimmed == [] || isPre ['#'] trimmed then st
  else if isPre servicesChars trimmed then { st with inServices := true }
  else if st.inServices then
    if decide (0 < line.length) && !(line.head? == some ' ') &&
        !(line.head? == some '\t') && !(isPre servicesChars trimmed) then
      { st with inServices := false }
    else if decide (2 ≤ line.length) && (line.head? == some ' ') &&
        !(line.get? 1 == some ' ') && isSuf [':'] trimmed then
      let serviceName := goTrimSuffix (goTrim line) [':']
      if serviceName != [] && !(serviceName.contains ' ') then
        { st with services := st.services ++ [serviceName] }
      else st
    else st
  else st

/-- Go loop removing duplicates with a seen set, keeping first occurrences. -/
def removeDupAux (seen : List (List Char)) (res : List (List Char)) :
    List (List Char) → List (List Char)
  | [] => res
  | item :: rest =>
    if item ∈ seen then removeDupAux seen res rest
    else removeDupAux (item :: seen) (res ++ [item]) rest

/-- Go removeDuplicates (analyzer.go). -/
def removeDuplicates (slice : List (List Char)) : List (List Char) :=
  removeDupAux [] [] slice

/-- Raw service-name sequence the line loop collects from a compose content,
before deduplication, starting from the already collected names init. -/
def rawComposeServices (init : List (List Char)) (content : List Char) :
    List (List Char) :=
  ((splitNl content).foldl composeLineStep
    { inServices := false, services := init }).services

/-- Body of Go parseDockerCompose after a successful read (analyzer.go):
scan the lines, then deduplicate the collected names. -/
def parseComposeContent (init : List (List Char)) (content : List Char) :
    List (List Char) :=
  removeDuplicates (rawComposeServices init content)

/-- Go parseDockerCompose: read the file, give up silently on a read error,
otherwise scan the content. -/
def parseDockerCompose (fs : FS) (composePath : String)
    (services : List (List Char)) : List (List Char) :=
  match fs.read composePath with
  | none => services
  | some content => parseComposeContent services content.data

/-- Compose content of the C2 example. -/
def composeExample : List Char :=
  ("services:\n  web:\n    image: app\n  db:\n    image: postgres\n" ++
    "networks:\n  default:").data

/-- Spec-side deduplication: keep each element once, at its first
occurrence. -/
def dedupFirstSpec : List (List Char) → List (List Char)
  | [] => []
  | x :: xs => x :: dedupFirstSpec (xs.filter (fun y => y != x))
termination_by l => l.length
decreasing_by simp_wf; exact Nat.lt_succ_of_le (List.length_filter_le _ _)

/-- Static dependency-file candidate list of findDependencyFiles. -/
def depFilesList : List String :=
  ["go.mod", "go.sum", "package.json", "package-lock.json", "yarn.lock",
   "pnpm-lock.yaml", "requirements.txt", "setup.py", "pyproject.toml",
   "Pipfile", "Gemfile", "Gemfile.lock", "Cargo.toml", "Cargo.lock",
   "pom.xml", "build.gradle", "composer.json", "composer.lock"]

/-- Go findDependencyFiles: walk the static list, appending every member
that exists. -/
def findDependencyFiles (fs : FS) (path : String) : List String :=
  depFilesList.foldl
    (fun acc f => if fileExists fs (pathJoin path f) then acc ++ [f] else acc) []

/-- Static config-file candidate list of findConfigFiles. -/
def configFilesList : List String :=
  [".env", ".env.local", ".env.example", "config.yaml", "config.yml",
   "config.json", ".eslintrc", ".eslintrc.json", ".prettierrc",
   "jest.config.js", "tsconfig.json", ".pylintrc", "setup.cfg", "tox.ini",
   ".gitignore", "Dockerfile", "docker-compose.yml", "docker-compose.yaml",
   ".github/workflows", ".gitlab-ci.yml", ".travis.yml", "Jenkinsfile"]

/-- Go findConfigFiles: walk the static list, appending every member that
exists as a file or as a directory. -/
def findConfigFiles (fs : FS) (path : String) : List String :=
  configFilesList.foldl
    (fun acc f =>
      if fileExists fs (pathJoin path f) || dirExists fs (pathJoin path f) then
        acc ++ [f]
      else acc) []

/-- Detected framework record: the fields the detector fills. -/
structure Framework where
  name : String
  ftype : String
  port : Nat
deriving DecidableEq, Repr

/-- JSON value as far as the detector inspects it: an object or anything
else (the code only type-asserts sub-maps). -/
inductive JValue where
  | obj (fields : List (String × JValue))
  | other : JValue

/-- Environment of the analyzer: the filesystem oracle plus the behaviour of
the external JSON unmarshaller (json.Unmarshal into a string-keyed map). -/
structure Env where
  fs : FS
  jsonParse : String → Option (List (String × JValue))

/-- Map lookup on an unmarshalled JSON object. -/
def lookupJ (m : List (String × JValue)) (k : String) : Option JValue :=
  (m.find? (fun kv => kv.1 == k)).map (fun kv => kv.2)

/-- Keys of the merged dependencies and devDependencies sub-maps of a parsed
package.json; only key membership is ever consulted. -/
def jsDepKeys (pkg : List (String × JValue)) : List String :=
  (match lookupJ pkg "dependencies" with
   | some (JValue.obj fields) => fields.map (fun kv => kv.1)
   | _ => []) ++
  (match lookupJ pkg "devDependencies" with
   | some (JValue.obj fields) => fields.map (fun kv => kv.1)
   | _ => [])

/-- Go detectGoFrameworks: substring probes of go.mod. -/
def detectGoFrameworks (env : Env) (path : String) : List Framework :=
  match env.fs.read (pathJoin path "go.mod") with
  | none => []
  | some content =>
    (if hasContent content "github.com/gin-gonic/gin" then
      [{ name := "Gin", ftype := "web", port := 3000 }] else []) ++
    (if hasContent content "github.com/labstack/echo" then
      [{ name := "Echo", ftype := "web", port := 8080 }] else []) ++
    (if hasContent content "github.com/gofiber/fiber" then
      [{ name := "Fiber", ftype := "web", port := 3000 }] else []) ++
    (if hasContent content "gorm.io/gorm" then
      [{ name := "GORM", ftype := "orm", port := 0 }] else [])

/-- Go detectJavaScriptFrameworks: parse package.json and test membership of
known dependency names. -/
def detectJavaScriptFrameworks (env : Env) (path : String) : List Framework :=
  match env.fs.read (pathJoin path "package.json") with
  | none => []
  | some content =>
    match env.jsonParse content with
    | none => []
    | some pkg =>
      let deps := jsDepKeys pkg
      (if deps.contains "next" then
        [{ name := "Next.js", ftype := "web", port := 3000 }] else []) ++
      (if deps.contains "react" then
        [{ name := "React", ftype := "frontend", port := 3000 }] else []) ++
      (if deps.contains "vue" then
        [{ name := "Vue", ftype := "frontend", port := 5173 }] else []) ++
      (if deps.contains "express" then
        [{ name := "Express", ftype := "web", port := 3000 }] else []) ++
      (if deps.contains "fastify" then
        [{ name := "Fastify", ftype := "web", port := 3000 }] else []) ++
      (if deps.contains "@nestjs/core" then
        [{ name := "NestJS", ftype := "web", port := 3000 }] else [])

/-- Go detectPythonFrameworks: probe requirements.txt, then pyproject.toml,
where each pyproject append is guarded by the found flag. -/
def detectPythonFrameworks (env : Env) (path : String) : List Framework :=
  let st0 : List Framework × Bool := ([], false)
  let st1 : List Framework × Bool :=
    match env.fs.read (pathJoin path "requirements.txt") with
    | some content =>
      let s1 := if hasContent content "django" then
        (st0.1 ++ [{ name := "Django", ftype := "web", port := 8000 }], true) else st0
      let s2 := if hasContent content "flask" then
        (s1.1 ++ [{ name := "Flask", ftype := "web", port := 5000 }], true) else s1
      let s3 := if hasContent content "fastapi" then
        (s2.1 ++ [{ name := "FastAPI", ftype := "web", port := 8000 }], true) else s2
      if hasContent content "sqlalchemy" then
        (s3.1 ++ [{ name := "SQLAlchemy", ftype := "orm", port := 0 }], true) else s3
    | none => st0
  let st2 : List Framework × Bool :=
    match env.fs.read (pathJoin path "pyproject.toml") with
    | some content =>
      let s1 := if hasContent content "django" && !st1.2 then
        (st1.1 ++ [{ name := "Django", ftype := "web", port := 8000 }], true) else st1
      let s2 := if hasContent content "flask" && !s1.2 then
        (s1.1 ++ [{ name := "Flask", ftype := "web", port := 5000 }], true) else s1
      if hasContent content "fastapi" && !s2.2 then
        (s2.1 ++ [{ name := "FastAPI", ftype := "web", port := 8000 }], true) else s2
    | none => st1
  st2.1

/-- Go detectRustFrameworks: substring probes of Cargo.toml. -/
def detectRustFrameworks (env : Env) (path : String) : List Framework :=
  match env.fs.read (pathJoin path "Cargo.toml") with
  | none => []
  | some content =>
    (if hasContent content "actix-web" then
      [{ name := "Actix", ftype := "web", port := 8000 }] else []) ++
    (if hasContent content "rocket" then
      [{ name := "Rocket", ftype := "web", port := 8000 }] else []) ++
    (if hasContent content "axum" then
      [{ name := "Axum", ftype := "web", port := 8000 }] else [])

/-- Go detectJavaFrameworks: pom.xml when readable, else build.gradle. -/
def detectJavaFrameworks (env : Env) (path : String) : List Framework :=
  match env.fs.read (pathJoin path "pom.xml") with
  | some content =>
    if hasContent content "spring-boot" then
      [{ name := "Spring Boot", ftype := "web", port := 8080 }] else []
  | none =>
    match env.fs.read (pathJoin path "build.gradle") with
    | some content =>
      if hasContent content "spring-boot" then
        [{ name := "Spring Boot", ftype := "web", port := 8080 }] else []
    | none => []

/-- Go detectRubyFrameworks: substring probes of the Gemfile. -/
def detectRubyFrameworks (env : Env) (path : String) : List Framework :=
  match env.fs.read (pathJoin path "Gemfile") with
  | none => []
  | some content =>
    (if hasContent content "rails" then
      [{ name := "Rails", ftype := "web", port := 3000 }] else []) ++
    (if hasContent content "sinatra" then
      [{ name := "Sinatra", ftype := "web", port := 4567 }] else [])

/-- Go detectFrameworks: dispatch on the detected language. -/
def detectFrameworks (env : Env) (path : String) (language : String) :
    List Framework :=
  if language == "go" then detectGoFrameworks env path
  else if language == "javascript" || language == "typescript" then
    detectJavaScriptFrameworks env path
  else if language == "python" then detectPythonFrameworks env path
  else if language == "rust" then detectRustFrameworks env path
  else if language == "java" then detectJavaFrameworks env path
  else if language == "ruby" then detectRubyFrameworks env path
  else []

/-- Go detectDocker: Dockerfile or either compose-file variant. -/
def detectDocker (fs : FS) (path : String) : Bool × List (List Char) :=
  let detected0 := fileExists fs (pathJoin path "Dockerfile")
  let st1 : Bool × List (List Char) :=
    if fileExists fs (pathJoin path "docker-compose.yml") then
      (true, parseDockerCompose fs (pathJoin path "docker-compose.yml") [])
    else (detected0, [])
  if fileExists fs (pathJoin path "docker-compose.yaml") then
    (true, parseDockerCompose fs (pathJoin path "docker-compose.yaml") st1.2)
  else st1

/-- Static test-directory candidate list of findTestDirs. -/
def testDirsList : List String :=
  ["test", "tests", "spec", "specs", "__tests__", ".test", ".tests"]

/-- Go findTestDirs: a conventional test directory, or otherwise a top-level
file whose name matches a test naming convention. -/
def findTestDirs (fs : FS) (path : String) : Bool :=
  if testDirsList.any (fun d => dirExists fs (pathJoin path d)) then true
  else
    match fs.readDir path with
    | none => false
    | some entries =>
      entries.any (fun e =>
        !e.isDir &&
          (containsSub e.name.data "_test.".data || isSuf ".test.js".data e.name.data))

/-- Static build-directory candidate list of findBuildDirs. -/
def buildDirsList : List String :=
  ["build", "dist", "out", "bin", "target", "release", "debug", ".build",
   "__pycache__", "node_modules/.bin"]

/-- Go findBuildDirs: first conventional build directory that exists. -/
def findBuildDirs (fs : FS) (path : String) : Bool :=
  buildDirsList.any (fun d => dirExists fs (pathJoin path d))

/-- First existing candidate of an ordered entry-point list, empty when none
exists. -/
def firstExisting (fs : FS) (path : String) : List String → String
  | [] => ""
  | e :: rest => if fileExists fs (pathJoin path e) then e else firstExisting fs path rest

/-- Go findMainEntrypoint: language-dispatched ordered candidate probing,
with the package.json main-field fallback for JavaScript. -/
def findMainEntrypoint (fs : FS) (path : String) (language : String) : String :=
  if language == "go" then
    if fileExists fs (pathJoin path "main.go") then "main.go" else ""
  else if language == "javascript" || language == "typescript" then
    let ep := firstExisting fs path
      ["index.js", "main.js", "app.js", "server.js", "index.ts", "main.ts"]
    if ep != "" then ep
    else
      match fs.read (pathJoin path "package.json") with
      | some content =>
        if containsSub content.data "\"main\"".data then "package.json (main field)"
        else ""
      | none => ""
  else if language == "python" then
    firstExisting fs path ["main.py", "app.py", "__main__.py", "run.py", "wsgi.py"]
  else if language == "rust" then
    if fileExists fs (pathJoin (pathJoin path "src") "main.rs") then "src/main.rs" else ""
  else if language == "java" then
    if fileExists fs (pathJoin (pathJoin (pathJoin path "src") "main") "java") then
      "src/main/java"
    else ""
  else if language == "ruby" then
    firstExisting fs path ["app.rb", "main.rb", "server.rb", "config.ru"]
  else ""

/-- Detection result record (Result in analyzer.go). -/
structure AnalyzeResult where
  language : String
  frameworks : List Framework
  dockerDetected : Bool
  dockerServices : List (List Char)
  testDirFound : Bool
  buildDirFound : Bool
  hasVendor : Bool
  hasModules : Bool
  dependencyFiles : List String
  configFiles : List String
  mainEntrypoint : String
  projectRoot : String
deriving DecidableEq, Repr

/-- Go Analyze: run the four sub-detectors, logging and swallowing their
errors, and return the assembled result; every return path is a success. -/
def Analyze (env : Env) (projectPath : String) : Except String AnalyzeResult :=
  let lang := detectLanguage env.fs projectPath
  let fws := detectFrameworks env projectPath lang.language
  let docker := detectDocker env.fs projectPath
  Except.ok
    { language := lang.language
      frameworks := fws
      dockerDetected := docker.1
      dockerServices := docker.2
      testDirFound := findTestDirs env.fs projectPath
      buildDirFound := findBuildDirs env.fs projectPath
      hasVendor := dirExists env.fs (pathJoin projectPath "vendor")
      hasModules := lang.hasModules
      dependencyFiles := findDependencyFiles env.fs projectPath
      configFiles := findConfigFiles env.fs projectPath
      mainEntrypoint := findMainEntrypoint env.fs projectPath lang.language
      projectRoot := projectPath }

/-- Environment whose filesystem answers nothing: every stat, read and
directory listing fails, as for an inaccessible root. -/
def inaccessibleEnv : Env :=
  { fs := { stat := fun _ => none, read := fun _ => none, readDir := fun _ => none },
    jsonParse := fun _ => none }

/-- Modelled from the spec: the repository's internal/generator package (the
Target Composition Engine, Builder.Build) is not among the sources; the kind
of a requested build target, the closed enumeration of section 3. -/
inductive TargetKind where
  | build | clean | run | test | coverage | lint | format | ci | deploy
deriving DecidableEq, Repr

/-- Canonical emission order of the target kinds, fixed by the model so that
the rendered order is a function of the requested set only. -/
def allKinds : List TargetKind :=
  [TargetKind.build, TargetKind.clean, TargetKind.run, TargetKind.test,
   TargetKind.coverage, TargetKind.lint, TargetKind.format, TargetKind.ci,
   TargetKind.deploy]

/-- Modelled from the spec: a custom target of the BuildConfig. -/
structure CustomTarget where
  name : String
  dependencies : List String
  commands : List String
  description : String
deriving DecidableEq, Repr

/-- Modelled from the spec: container options of the BuildConfig. -/
structure ContainerCfg where
  enabled : Bool
  image : String
  services : List String
  composeTargets : Bool
deriving DecidableEq, Repr

/-- Modelled from the spec: the BuildConfig handed to the Target Composition
Engine; the requested target kinds arrive as an enumeration of a set, whose
order and multiplicity carry no meaning. -/
structure BuildConfig where
  projectName : String
  language : String
  kinds : List TargetKind
  container : ContainerCfg
  customTargets : List CustomTarget
deriving DecidableEq, Repr

/-- Modelled from the spec: per-language command table for a target kind,
with a placeholder recipe for unsupported pairs. -/
def commandFor (language : String) (k : TargetKind) : List String :=
  match k with
  | TargetKind.build =>
    if language == "go" then ["go build ./..."]
    else if language == "python" then ["python -m build"]
    else if language == "javascript" || language == "typescript" then ["npm run build"]
    else if language == "rust" then ["cargo build"]
    else ["@echo placeholder: no build recipe for this language"]
  | TargetKind.clean => ["rm -rf build dist"]
  | TargetKind.run =>
    if language == "go" then ["go run ."]
    else if language == "python" then ["python main.py"]
    else if language == "javascript" || language == "typescript" then ["npm start"]
    else if language == "rust" then ["cargo run"]
    else ["@echo placeholder: no run recipe for this language"]
  | TargetKind.test =>
    if language == "go" then ["go test ./..."]
    else if language == "python" then ["pytest"]
    else if language == "javascript" || language == "typescript" then ["npm test"]
    else if language == "rust" then ["cargo test"]
    else ["@echo placeholder: no test recipe for this language"]
  | TargetKind.coverage =>
    if language == "go" then ["go test -cover ./..."]
    else ["@echo placeholder: no coverage recipe for this language"]
  | TargetKind.lint => ["@echo placeholder: lint"]
  | TargetKind.format => ["@echo placeholder: format"]
  | TargetKind.ci => ["@echo placeholder: ci"]
  | TargetKind.deploy => ["@echo placeholder: deploy"]

/-- Target-kind name used for the rendered target. -/
def kindName : TargetKind → String
  | TargetKind.build => "build"
  | TargetKind.clean => "clean"
  | TargetKind.run => "run"
  | TargetKind.test => "test"
  | TargetKind.coverage => "coverage"
  | TargetKind.lint => "lint"
  | TargetKind.format => "format"
  | TargetKind.ci => "ci"
  | TargetKind.deploy => "deploy"

/-- Rendered target block of the document grammar: name, dependency line and
tab-indented commands. -/
structure RTarget where
  name : String
  dependencies : List String
  commands : List String
deriving DecidableEq, Repr

/-- Modelled from the spec: container-related targets, present only when the
container is enabled, with per-service compose targets when requested. -/
def containerTargets (c : ContainerCfg) : List RTarget :=
  if c.enabled then
    [{ name := "docker-build", dependencies := [],
       commands := ["docker build -t " ++ c.image ++ " ."] },
     { name := "docker-run", dependencies := ["docker-build"],
       commands := ["docker run " ++ c.image] }] ++
    (if c.composeTargets then
      (c.services.map (fun s =>
        { name := "compose-up-" ++ s, dependencies := [],
          commands := ["docker compose up -d " ++ s] })) ++
      [{ name := "compose-up", dependencies := [],
         commands := ["docker compose up -d"] },
       { name := "compose-down", dependencies := [],
         commands := ["docker compose down"] }]
    else [])
  else []

/-- Modelled from the spec: generated targets for the requested kinds, in
the canonical kind order, followed by container targets; custom targets are
appended in supplied order and shadow generated targets of the same name. -/
def assembleTargets (cfg : BuildConfig) : List RTarget :=
  let generated :=
    ((allKinds.filter (fun k => cfg.kinds.contains k)).map (fun k =>
      { name := kindName k, dependencies := [],
        commands := commandFor cfg.language k : RTarget })) ++
    containerTargets cfg.container
  let customNames := cfg.customTargets.map (fun t => t.name)
  (generated.filter (fun t => !(customNames.contains t.name))) ++
    cfg.customTargets.map (fun t =>
      { name := t.name, dependencies := t.dependencies, commands := t.commands })

/-- Render one target block. -/
def renderTarget (t : RTarget) : String :=
  t.name ++ ": " ++ String.intercalate " " t.dependencies ++ "\n" ++
    String.intercalate "" (t.commands.map (fun c => "\t" ++ c ++ "\n"))

/-- Modelled from the spec: render the BuildConfig into the build-script
text: variable lines, the target blocks and one aggregated phony line. -/
def render (cfg : BuildConfig) : String :=
  let targets := assembleTargets cfg
  let vars := "PROJECT_NAME = " ++ cfg.projectName ++ "\n" ++
    (if cfg.container.enabled then "DOCKER_IMAGE = " ++ cfg.container.image ++ "\n" else "")
  let body := String.intercalate "" (targets.map renderTarget)
  let phony := ".PHONY: " ++ String.intercalate " " (targets.map (fun t => t.name)) ++ "\n"
  vars ++ "\n" ++ body ++ "\n" ++ phony

/-- Filesystem in which the only statable path is a directory named go.mod
under the root r. -/
def dirGoModFS : FS :=
  { stat := fun p => if p = "r/go.mod" then some EntryKind.dir else none,
    read := fun _ => none,
    readDir := fun _ => none }

/-- C1: for every root, detectLanguage returns the language of the first
matching marker in the fixed precedence order go.mod, then the python
manifests, then package.json refined by tsconfig.json, then Cargo.toml,
pom.xml, the gradle files, Gemfile, composer.json and the cpp build markers;
with markers of two ecosystems present the earlier group wins, and the result
depends only on the marker-existence probes, never on iteration order. -/
theorem detectLanguage_eq_classifySpec (fs : FS) (path : String) :
    (detectLanguage fs path).language = classifySpec fs path := by
  unfold detectLanguage classifySpec markerPrecedence
  simp only [List.find?, List.any_cons, List.any_nil, Bool.or_false]
  generalize fileExists fs (pathJoin path "go.mod") = b1
  generalize fileExists fs (pathJoin path "requirements.txt") = b2
  generalize fileExists fs (pathJoin path "setup.py") = b3
  generalize fileExists fs (pathJoin path "pyproject.toml") = b4
  generalize fileExists fs (pathJoin path "package.json") = b5
  generalize fileExists fs (pathJoin path "tsconfig.json") = b6
  generalize fileExists fs (pathJoin path "Cargo.toml") = b7
  generalize fileExists fs (pathJoin path "pom.xml") = b8
  generalize fileExists fs (pathJoin path "build.gradle") = b9
  generalize fileExists fs (pathJoin path "build.gradle.kts") = b10
  generalize fileExists fs (pathJoin path "Gemfile") = b11
  generalize fileExists fs (pathJoin path "composer.json") = b12
  generalize fileExists fs (pathJoin path "CMakeLists.txt") = b13
  generalize fileExists fs (pathJoin path "Makefile") = b14
  revert b1 b2 b3 b4 b5 b6 b7 b8 b9 b10 b11 b12 b13 b14
  decide

/-- C10: the marker-file probe succeeds for every path whose stat succeeds,
whatever kind the entry has; hence a root holding a directory named go.mod is
classified go exactly as if a go.mod file were present. -/
theorem fileExists_ignores_entry_kind :
    (∀ (fs : FS) (p : String), fileExists fs p = (fs.stat p).isSome) ∧
    (∀ (fs : FS) (path : String) (k : EntryKind),
      fs.stat (pathJoin path "go.mod") = some k →
      (detectLanguage fs path).language = "go" ∧
        fileExists fs (pathJoin path "go.mod") = true) := by
  refine ⟨fun fs p => rfl, fun fs path k h => ?_⟩
  have hex : fileExists fs (pathJoin path "go.mod") = true := by
    simp [fileExists, h]
  exact ⟨by simp [detectLanguage, hex], hex⟩

/-- C10 witness: a directory named go.mod under the root r makes the
classifier answer go. -/
theorem fileExists_ignores_entry_kind_witness :
    (detectLanguage dirGoModFS "r").language = "go" ∧
      fileExists dirGoModFS "r/go.mod" = true :=
  fileExists_ignores_entry_kind.2 dirGoModFS "r" EntryKind.dir (by decide)

/-- C2 evaluation at the failing input: on the two-space-indented example the
extraction records no service at all, because the recording condition demands
a non-space second character, while the claim expects web and db; the second
half of the claim, that a line with four or more leading spaces never records
a name, does hold. -/
theorem parseCompose_example_records_nothing :
    parseComposeContent [] composeExample = [] ∧
    (∀ (st : ComposeState) (rest : List Char),
      (composeLineStep st ([' ', ' ', ' ', ' '] ++ rest)).services = st.services) := by
  refine ⟨by decide, fun st rest => ?_⟩
  simp only [composeLineStep]
  split_ifs <;> simp_all

/-- C3 counterexample: the line services: x, whose trimmed content is not
exactly the string services:, still switches the scanner into the in-services
state, because the code tests only a prefix. -/
theorem composeEntry_accepts_prefixed_line :
    (composeLineStep { inServices := false, services := [] }
      ("services: x".data)).inServices = true := by decide

/-- Helper: a trimmed line opening with the comment character cannot carry
the services key. -/
theorem isPre_services_of_hash (t : List Char) (h : isPre ['#'] t = true) :
    isPre servicesChars t = false := by
  cases t with
  | nil => simp [isPre] at h
  | cons c rest =>
    simp only [isPre, Bool.and_true] at h
    have hc : c = '#' := by
      cases hcc : ('#' == c) with
      | false => rw [hcc] at h; simp at h
      | true => exact (beq_iff_eq.mp hcc).symm
    subst hc
    have hs : servicesChars = 's' :: "ervices:".data := by decide
    rw [hs]
    simp only [isPre]
    rw [show ('s' == '#') = false by decide]
    simp

/-- Helper: the empty trimmed line does not carry the services key. -/
theorem isPre_services_nil : isPre servicesChars [] = false := by decide

/-- C3 amended: from outside the services block, the scanner enters the
in-services state exactly on a line whose trimmed content starts with the
prefix services: (so services: x and an indented nested services: both cause
entry), and on no other line. -/
theorem composeEntry_iff_services_prefix_matches
    (st : ComposeState) (line : List Char) (h : st.inServices = false) :
    (composeLineStep st line).inServices = isPre servicesChars (goTrim line) := by
  simp only [composeLineStep, h]
  split_ifs with h1 h2 <;> try simp_all
  rcases (by simpa using h1 : goTrim line = [] ∨ isPre ['#'] (goTrim line) = true)
    with hb | hb
  · simp [hb, isPre_services_nil]
  · simp [isPre_services_of_hash _ hb]

/-- C3 amended witness: from the initial state, the line services: x enters
the in-services state, in agreement with the prefix test. -/
theorem composeEntry_iff_services_prefix_matches_witness :
    (composeLineStep { inServices := false, services := [] }
      ("services: x".data)).inServices =
      isPre servicesChars (goTrim ("services: x".data)) :=
  composeEntry_iff_services_prefix_matches
    { inServices := false, services := [] } ("services: x".data) rfl

/-- C6: a blank line, and a line whose trimmed content starts with the
comment character, leave the scanner state untouched: no service is recorded
and the in-services flag keeps its value, even for an unindented comment
inside the services block. -/
theorem composeSkip_blank_and_comment
    (st : ComposeState) (line : List Char)
    (h : goTrim line = [] ∨ isPre ['#'] (goTrim line) = true) :
    composeLineStep st line = st := by
  simp only [composeLineStep]
  rcases h with h | h <;> simp [h]

/-- C6 witness: an unindented comment line inside the services block changes
nothing, in particular it does not end the block. -/
theorem composeSkip_blank_and_comment_witness :
    composeLineStep { inServices := true, services := ["web".data] }
      ("# comment".data) = { inServices := true, services := ["web".data] } :=
  composeSkip_blank_and_comment
    { inServices := true, services := ["web".data] } ("# comment".data)
    (Or.inr (by decide))

/-- Helper: the seen-set loop of removeDuplicates computes the
first-occurrence deduplication of the suffix not yet seen. -/
theorem removeDupAux_eq (l : List (List Char)) :
    ∀ (seen res : List (List Char)),
      removeDupAux seen res l =
        res ++ dedupFirstSpec (l.filter (fun x => decide (x ∉ seen))) := by
  induction l with
  | nil => intro seen res; simp [removeDupAux, dedupFirstSpec]
  | cons item rest ih =>
    intro seen res
    by_cases hmem : item ∈ seen
    · rw [removeDupAux, if_pos hmem, ih]
      simp [hmem]
    · rw [removeDupAux, if_neg hmem, ih]
      have hfil : rest.filter (fun x => decide (x ∉ item :: seen)) =
          (rest.filter (fun x => decide (x ∉ seen))).filter (fun y => y != item) := by
        rw [List.filter_filter]
        apply List.filter_congr
        intro a _
        by_cases h1 : a = item <;> by_cases h2 : a ∈ seen <;> simp [h1, h2]
      rw [List.filter_cons_of_pos (by simp [hmem])]
      rw [dedupFirstSpec]
      rw [hfil]
      simp

/-- Helper: removeDuplicates is exactly first-occurrence deduplication. -/
theorem removeDuplicates_eq_dedupFirstSpec (l : List (List Char)) :
    removeDuplicates l = dedupFirstSpec l := by
  rw [removeDuplicates, removeDupAux_eq]
  simp

/-- Helper: first-occurrence deduplication preserves membership. -/
theorem mem_dedupFirstSpec (l : List (List Char)) (x : List Char) :
    x ∈ dedupFirstSpec l ↔ x ∈ l := by
  induction l using dedupFirstSpec.induct with
  | case1 => simp [dedupFirstSpec]
  | case2 a xs ih =>
    rw [dedupFirstSpec]
    simp only [List.mem_cons, ih, List.mem_filter, bne_iff_ne]
    constructor
    · rintro (h | ⟨h, _⟩) <;> simp [h]
    · rintro (h | h)
      · exact Or.inl h
      · by_cases hx : x = a
        · exact Or.inl hx
        · exact Or.inr ⟨h, hx⟩

/-- Helper: first-occurrence deduplication emits no element twice. -/
theorem nodup_dedupFirstSpec (l : List (List Char)) :
    (dedupFirstSpec l).Nodup := by
  induction l using dedupFirstSpec.induct with
  | case1 => simp [dedupFirstSpec]
  | case2 a xs ih =>
    rw [dedupFirstSpec]
    refine List.nodup_cons.mpr ⟨?_, ih⟩
    rw [mem_dedupFirstSpec]
    simp

/-- Helper: first-occurrence deduplication respects the input order. -/
theorem sublist_dedupFirstSpec (l : List (List Char)) :
    (dedupFirstSpec l).Sublist l := by
  induction l using dedupFirstSpec.induct with
  | case1 => simp [dedupFirstSpec]
  | case2 a xs ih =>
    rw [dedupFirstSpec]
    exact List.Sublist.cons₂ a (ih.trans (List.filter_sublist xs))

/-- C7: the recorded services sequence is the first-occurrence deduplication
of the raw scan: it contains each name at most once, as a subsequence of the
raw sequence with the same members; a compose file listing the same service
twice yields the name once. -/
theorem parseCompose_dedup_first_occurrence :
    (∀ (init : List (List Char)) (content : List Char),
      parseComposeContent init content =
          dedupFirstSpec (rawComposeServices init content) ∧
        (parseComposeContent init content).Nodup ∧
        (parseComposeContent init content).Sublist (rawComposeServices init content) ∧
        (∀ x, x ∈ parseComposeContent init content ↔
          x ∈ rawComposeServices init content)) ∧
    parseComposeContent [] ("services:\n web:\n web:").data = ["web".data] := by
  refine ⟨fun init content => ?_, by decide⟩
  have he := removeDuplicates_eq_dedupFirstSpec (rawComposeServices init content)
  rw [parseComposeContent] at *
  exact ⟨he, he ▸ nodup_dedupFirstSpec _, he ▸ sublist_dedupFirstSpec _,
    fun x => he ▸ mem_dedupFirstSpec _ x⟩

/-- Helper: the conditional-append loop over a static list computes the
filter of that list. -/
theorem foldl_append_filter {α : Type} (p : α → Bool) (l : List α) :
    ∀ acc, l.foldl (fun a x => if p x then a ++ [x] else a) acc = acc ++ l.filter p := by
  induction l with
  | nil => intro acc; simp
  | cons x xs ih =>
    intro acc
    by_cases h : p x <;> simp [List.filter_cons, h, ih]

/-- C8: the dependency-file and config-file sequences are exactly the members
of the static candidate lists that exist, in the declared list order (a
subsequence of the static list), and two roots whose candidate probes agree
yield identical sequences. -/
theorem findFiles_follow_static_list_order :
    (∀ (fs : FS) (path : String),
      findDependencyFiles fs path =
          depFilesList.filter (fun f => fileExists fs (pathJoin path f)) ∧
        (findDependencyFiles fs path).Sublist depFilesList ∧
        (∀ f, f ∈ findDependencyFiles fs path ↔
          f ∈ depFilesList ∧ fileExists fs (pathJoin path f) = true)) ∧
    (∀ (fs : FS) (path : String),
      findConfigFiles fs path =
          configFilesList.filter
            (fun f => fileExists fs (pathJoin path f) || dirExists fs (pathJoin path f)) ∧
        (findConfigFiles fs path).Sublist configFilesList ∧
        (∀ f, f ∈ findConfigFiles fs path ↔
          f ∈ configFilesList ∧
            (fileExists fs (pathJoin path f) || dirExists fs (pathJoin path f)) = true)) ∧
    (∀ (fs₁ : FS) (path₁ : String) (fs₂ : FS) (path₂ : String),
      (∀ f ∈ depFilesList,
        fileExists fs₁ (pathJoin path₁ f) = fileExists fs₂ (pathJoin path₂ f)) →
      findDependencyFiles fs₁ path₁ = findDependencyFiles fs₂ path₂) ∧
    (∀ (fs₁ : FS) (path₁ : String) (fs₂ : FS) (path₂ : String),
      (∀ f ∈ configFilesList,
        (fileExists fs₁ (pathJoin path₁ f) || dirExists fs₁ (pathJoin path₁ f)) =
          (fileExists fs₂ (pathJoin path₂ f) || dirExists fs₂ (pathJoin path₂ f))) →
      findConfigFiles fs₁ path₁ = findConfigFiles fs₂ path₂) := by
  have hdep : ∀ (fs : FS) (path : String),
      findDependencyFiles fs path =
        depFilesList.filter (fun f => fileExists fs (pathJoin path f)) := by
    intro fs path
    rw [findDependencyFiles, foldl_append_filter]
    simp
  have hcfg : ∀ (fs : FS) (path : String),
      findConfigFiles fs path =
        configFilesList.filter
          (fun f => fileExists fs (pathJoin path f) || dirExists fs (pathJoin path f)) := by
    intro fs path
    rw [findConfigFiles, foldl_append_filter]
    simp
  refine ⟨fun fs path => ⟨hdep fs path, ?_, ?_⟩,
    fun fs path => ⟨hcfg fs path, ?_, ?_⟩, ?_, ?_⟩
  · rw [hdep]; exact List.filter_sublist _
  · intro f; rw [hdep]; simp [List.mem_filter]
  · rw [hcfg]; exact List.filter_sublist _
  · intro f; rw [hcfg]; simp [List.mem_filter]
  · intro fs₁ path₁ fs₂ path₂ hag
    rw [hdep, hdep]
    exact List.filter_congr (fun f hf => hag f hf)
  · intro fs₁ path₁ fs₂ path₂ hag
    rw [hcfg, hcfg]
    exact List.filter_congr (fun f hf => hag f hf)

/-- One-file filesystem: a go.mod file under the root r. -/
def fsGoModUnderR : FS :=
  { stat := fun p => if p = "r/go.mod" then some EntryKind.file else none,
    read := fun _ => none,
    readDir := fun _ => none }

/-- One-entry filesystem: a directory named go.mod under the root q. -/
def fsGoModDirUnderQ : FS :=
  { stat := fun p => if p = "q/go.mod" then some EntryKind.dir else none,
    read := fun _ => none,
    readDir := fun _ => none }

/-- C8 witness: two different roots with the same present candidates produce
the same dependency-file sequence. -/
theorem findFiles_follow_static_list_order_witness :
    findDependencyFiles fsGoModUnderR "r" = findDependencyFiles fsGoModDirUnderQ "q" :=
  findFiles_follow_static_list_order.2.2.1 fsGoModUnderR "r" fsGoModDirUnderQ "q"
    (by decide)

/-- Helper: no duplicate names among detected Go frameworks. -/
theorem go_names_nodup (env : Env) (path : String) :
    ((detectGoFrameworks env path).map Framework.name).Nodup := by
  unfold detectGoFrameworks
  cases env.fs.read (pathJoin path "go.mod") with
  | none => simp
  | some content => dsimp only; split_ifs <;> decide

/-- Helper: no duplicate names among detected JavaScript frameworks. -/
theorem js_names_nodup (env : Env) (path : String) :
    ((detectJavaScriptFrameworks env path).map Framework.name).Nodup := by
  unfold detectJavaScriptFrameworks
  cases env.fs.read (pathJoin path "package.json") with
  | none => simp
  | some content =>
    dsimp only
    cases env.jsonParse content with
    | none => simp
    | some pkg => dsimp only; split_ifs <;> decide

/-- Helper: no duplicate names among detected Python frameworks; the found
flag blocks every pyproject append once requirements contributed. -/
theorem python_names_nodup (env : Env) (path : String) :
    ((detectPythonFrameworks env path).map Framework.name).Nodup := by
  unfold detectPythonFrameworks
  cases env.fs.read (pathJoin path "requirements.txt") with
  | none =>
    cases env.fs.read (pathJoin path "pyproject.toml") with
    | none => simp
    | some content =>
      dsimp only
      generalize hasContent content "django" = c1
      generalize hasContent content "flask" = c2
      generalize hasContent content "fastapi" = c3
      revert c1 c2 c3
      decide
  | some content =>
    cases env.fs.read (pathJoin path "pyproject.toml") with
    | none =>
      dsimp only
      generalize hasContent content "django" = b1
      generalize hasContent content "flask" = b2
      generalize hasContent content "fastapi" = b3
      generalize hasContent content "sqlalchemy" = b4
      revert b1 b2 b3 b4
      decide
    | some content2 =>
      dsimp only
      generalize hasContent content "django" = b1
      generalize hasContent content "flask" = b2
      generalize hasContent content "fastapi" = b3
      generalize hasContent content "sqlalchemy" = b4
      generalize hasContent content2 "django" = c1
      generalize hasContent content2 "flask" = c2
      generalize hasContent content2 "fastapi" = c3
      revert b1 b2 b3 b4 c1 c2 c3
      decide

/-- Helper: no duplicate names among detected Rust frameworks. -/
theorem rust_names_nodup (env : Env) (path : String) :
    ((detectRustFrameworks env path).map Framework.name).Nodup := by
  unfold detectRustFrameworks
  cases env.fs.read (pathJoin path "Cargo.toml") with
  | none => simp
  | some content => dsimp only; split_ifs <;> decide

/-- Helper: no duplicate names among detected Java frameworks. -/
theorem java_names_nodup (env : Env) (path : String) :
    ((detectJavaFrameworks env path).map Framework.name).Nodup := by
  unfold detectJavaFrameworks
  cases env.fs.read (pathJoin path "pom.xml") with
  | none =>
    dsimp only
    cases env.fs.read (pathJoin path "build.gradle") with
    | none => simp
    | some content => dsimp only; split_ifs <;> decide
  | some content => dsimp only; split_ifs <;> decide

/-- Helper: no duplicate names among detected Ruby frameworks. -/
theorem ruby_names_nodup (env : Env) (path : String) :
    ((detectRubyFrameworks env path).map Framework.name).Nodup := by
  unfold detectRubyFrameworks
  cases env.fs.read (pathJoin path "Gemfile") with
  | none => simp
  | some content => dsimp only; split_ifs <;> decide

/-- C5: for every root and every detected language, the framework classifier
never emits two Framework records with the same name in one run, even when a
library identifier occurs in two manifests. -/
theorem detectFrameworks_no_duplicate_names
    (env : Env) (path : String) (language : String) :
    ((detectFrameworks env path language).map Framework.name).Nodup := by
  unfold detectFrameworks
  split_ifs <;>
    first
      | exact go_names_nodup env path
      | exact js_names_nodup env path
      | exact python_names_nodup env path
      | exact rust_names_nodup env path
      | exact java_names_nodup env path
      | exact ruby_names_nodup env path
      | simp

/-- C4 counterexample: with a root whose stat, read and listing calls all
fail, Analyze still returns successfully instead of reporting a fatal
detection failure. -/
theorem analyze_ok_despite_unlistable_root :
    ((Analyze inaccessibleEnv "root").isOk = true) ∧
    (∀ p, inaccessibleEnv.fs.stat p = none) ∧
    (∀ p, inaccessibleEnv.fs.read p = none) ∧
    inaccessibleEnv.fs.readDir "root" = none :=
  ⟨rfl, fun _ => rfl, fun _ => rfl, rfl⟩

/-- C4 amended: when the root directory is inaccessible (all stat, read and
listing probes fail), Analyze swallows every sub-detector failure and
returns a success carrying the default signals: language unknown, no
frameworks, no docker, no files found. -/
theorem analyze_returns_ok_on_inaccessible_root (env : Env) (path : String)
    (h1 : ∀ p, env.fs.stat p = none) (h2 : ∀ p, env.fs.read p = none)
    (h3 : env.fs.readDir path = none) :
    Analyze env path = Except.ok
      { language := "unknown", frameworks := [], dockerDetected := false,
        dockerServices := [], testDirFound := false, buildDirFound := false,
        hasVendor := false, hasModules := false, dependencyFiles := [],
        configFiles := [], mainEntrypoint := "", projectRoot := path } := by
  simp [Analyze, detectLanguage, fileExists, dirExists, detectFrameworks,
        detectDocker, findTestDirs, findBuildDirs, findMainEntrypoint,
        findDependencyFiles, findConfigFiles, depFilesList, configFilesList,
        testDirsList, buildDirsList, h1, h2, h3]

/-- C4 amended witness: the all-failing environment produces exactly the
default success value. -/
theorem analyze_returns_ok_on_inaccessible_root_witness :
    Analyze inaccessibleEnv "root" = Except.ok
      { language := "unknown", frameworks := [], dockerDetected := false,
        dockerServices := [], testDirFound := false, buildDirFound := false,
        hasVendor := false, hasModules := false, dependencyFiles := [],
        configFiles := [], mainEntrypoint := "", projectRoot := "root" } :=
  analyze_returns_ok_on_inaccessible_root inaccessibleEnv "root"
    (fun _ => rfl) (fun _ => rfl) rfl

/-- Build configuration requesting build and test (with a duplicated
enumeration entry) besides container and custom targets. -/
def cfgEnumA : BuildConfig :=
  { projectName := "app", language := "go",
    kinds := [TargetKind.build, TargetKind.test, TargetKind.build],
    container := { enabled := true, image := "app:latest", services := ["web"],
                   composeTargets := true },
    customTargets := [{ name := "docs", dependencies := [],
                        commands := ["make docs"], description := "" }] }

/-- Same requested set as cfgEnumA, enumerated in another order. -/
def cfgEnumB : BuildConfig :=
  { projectName := "app", language := "go",
    kinds := [TargetKind.test, TargetKind.build],
    container := { enabled := true, image := "app:latest", services := ["web"],
                   composeTargets := true },
    customTargets := [{ name := "docs", dependencies := [],
                        commands := ["make docs"], description := "" }] }

/-- C9: rendering is deterministic: the output text is a function of the
BuildConfig value alone, and the order of emitted variables and targets
depends only on the requested set, never on the order or multiplicity in
which a set enumeration presents it. -/
theorem render_deterministic (c₁ c₂ : BuildConfig)
    (hname : c₁.projectName = c₂.projectName)
    (hlang : c₁.language = c₂.language)
    (hcont : c₁.container = c₂.container)
    (hcust : c₁.customTargets = c₂.customTargets)
    (hkinds : ∀ k, c₁.kinds.contains k = c₂.kinds.contains k) :
    render c₁ = render c₂ := by
  have hk : (fun k => c₁.kinds.contains k) = (fun k => c₂.kinds.contains k) :=
    funext hkinds
  simp only [render, assembleTargets]
  rw [hname, hlang, hcont, hcust, hk]

/-- C9 witness: two enumerations of the same requested set, one with a
duplicate and another order, render byte-identically. -/
theorem render_deterministic_witness : render cfgEnumA = render cfgEnumB :=
  render_deterministic cfgEnumA cfgEnumB rfl rfl rfl rfl
    (fun k => by cases k <;> rfl)

end Makegen
